import Mathlib

/-!
Verification development for the address-book contact manager
(source: src/address_book.py).

The Python data model and operations are shallowly embedded:

* `PyDate` models `datetime.date` values (proleptic Gregorian calendar,
  compared lexicographically by year, month, day, which agrees with the
  ordinal-based order of the Python library).
* `parseDDMMYYYY` models `datetime.strptime(value, "%d.%m.%Y").date()`:
  the day token of the underlying pattern accepts one or two digits with
  value 1..31 or a space followed by one digit, the month token one or two
  digits with value 1..12, the year token exactly four digits; the date
  constructor then validates the calendar date and rejects year 0.
* `formatDate` models `date.strftime("%d.%m.%Y")` (day and month zero
  padded to two digits, the year printed without padding, as on the
  reference platform), `isoStr` models `str(date)` (ISO YYYY-MM-DD).
* Stateful methods become functions from the receiver to the updated
  value; raising code returns `Except String`.  The ambient call
  `datetime.today().date()` inside `get_upcoming_birthdays` becomes an
  explicit `current` parameter.
-/

namespace AddressBookPy

/-- Decidable equality for `Except` results, so that concrete runs of
the embedded operations can be checked by `decide`. -/
instance {ε α : Type} [DecidableEq ε] [DecidableEq α] :
    DecidableEq (Except ε α) := fun x y =>
  match x, y with
  | .ok a, .ok b =>
    if h : a = b then .isTrue (congrArg Except.ok h)
    else .isFalse fun hh => h (Except.ok.inj hh)
  | .error a, .error b =>
    if h : a = b then .isTrue (congrArg Except.error h)
    else .isFalse fun hh => h (Except.error.inj hh)
  | .ok _, .error _ => .isFalse fun hh => Except.noConfusion hh
  | .error _, .ok _ => .isFalse fun hh => Except.noConfusion hh

/-- A calendar date as stored by `datetime.date`: year, month, day. -/
structure PyDate where
  year : Nat
  month : Nat
  day : Nat
deriving DecidableEq, Repr

/-- Gregorian leap-year rule, as used by `datetime`. -/
def isLeap (y : Nat) : Bool :=
  y % 4 == 0 && (y % 100 != 0 || y % 400 == 0)

/-- Number of days in a month of a given year. -/
def daysInMonth (y m : Nat) : Nat :=
  if m = 2 then (if isLeap y then 29 else 28)
  else if m = 4 ∨ m = 6 ∨ m = 9 ∨ m = 11 then 30
  else 31

/-- The dates representable by `datetime.date` (year bounded below;
the year 9999 upper bound of the library is outside the scope of the
claims considered here). -/
def validDate (d : PyDate) : Prop :=
  1 ≤ d.year ∧ 1 ≤ d.month ∧ d.month ≤ 12 ∧ 1 ≤ d.day ∧
    d.day ≤ daysInMonth d.year d.month

instance (d : PyDate) : Decidable (validDate d) := by
  unfold validDate; exact inferInstance

/-- Strict order on dates (`date.__lt__`): lexicographic on
(year, month, day). -/
def pyLt (a b : PyDate) : Prop :=
  a.year < b.year ∨ (a.year = b.year ∧
    (a.month < b.month ∨ (a.month = b.month ∧ a.day < b.day)))

instance (a b : PyDate) : Decidable (pyLt a b) := by
  unfold pyLt; exact inferInstance

/-- Non-strict order on dates (`date.__le__`). -/
def pyLe (a b : PyDate) : Prop := pyLt a b ∨ a = b

instance (a b : PyDate) : Decidable (pyLe a b) := by
  unfold pyLe; exact inferInstance

/-- The day after a date (used to model `timedelta` addition). -/
def nextDay (d : PyDate) : PyDate :=
  if d.day < daysInMonth d.year d.month then ⟨d.year, d.month, d.day + 1⟩
  else if d.month < 12 then ⟨d.year, d.month + 1, 1⟩
  else ⟨d.year + 1, 1, 1⟩

/-- `d + timedelta(days = n)`. -/
def addDays : PyDate → Nat → PyDate
  | d, 0 => d
  | d, n + 1 => nextDay (addDays d n)

/-- Days in the months before month `m` of year `y`. -/
def daysBeforeMonth (y : Nat) : Nat → Nat
  | 0 => 0
  | 1 => 0
  | m + 2 => daysBeforeMonth y (m + 1) + daysInMonth y (m + 1)

/-- Days in the years before year `y` (proleptic Gregorian). -/
def daysBeforeYear (y : Nat) : Nat :=
  365 * (y - 1) + (y - 1) / 4 + (y - 1) / 400 - (y - 1) / 100

/-- `date.toordinal()`: day number with 0001-01-01 as day 1. -/
def toOrdinal (d : PyDate) : Nat :=
  daysBeforeYear d.year + daysBeforeMonth d.year d.month + d.day

/-- `date.weekday()`: Monday is 0, Sunday is 6. -/
def weekday (d : PyDate) : Nat := (toOrdinal d + 6) % 7

/-- Two-digit zero padding, as in the `%d` and `%m` directives. -/
def pad2 (n : Nat) : String := if n < 10 then "0" ++ toString n else toString n

/-- Four-digit zero padding, as in `date.isoformat`. -/
def pad4 (n : Nat) : String :=
  if n < 10 then "000" ++ toString n
  else if n < 100 then "00" ++ toString n
  else if n < 1000 then "0" ++ toString n
  else toString n

/-- `date.strftime("%d.%m.%Y")`. -/
def formatDate (d : PyDate) : String :=
  pad2 d.day ++ "." ++ pad2 d.month ++ "." ++ toString d.year

/-- `str(date)`, i.e. `date.isoformat()`: YYYY-MM-DD. -/
def isoStr (d : PyDate) : String :=
  pad4 d.year ++ "-" ++ pad2 d.month ++ "-" ++ pad2 d.day

/-- Numeric value of a list of decimal digit characters. -/
def natOfDigits (l : List Char) : Nat :=
  l.foldl (fun a c => a * 10 + (c.toNat - 48)) 0

/-- The day token of `strptime` pattern `%d`:
two digits with value 1..31, one digit 1..9, or a space and one digit 1..9. -/
def dayToken : List Char → Option Nat
  | [c] => if c.isDigit ∧ c ≠ '0' then some (c.toNat - 48) else none
  | [c1, c2] =>
    if c1 = ' ' then
      (if c2.isDigit ∧ c2 ≠ '0' then some (c2.toNat - 48) else none)
    else if c1.isDigit ∧ c2.isDigit then
      (let v := 10 * (c1.toNat - 48) + (c2.toNat - 48)
       if 1 ≤ v ∧ v ≤ 31 then some v else none)
    else none
  | _ => none

/-- The month token of `strptime` pattern `%m`:
two digits with value 1..12 or one digit 1..9. -/
def monthToken : List Char → Option Nat
  | [c] => if c.isDigit ∧ c ≠ '0' then some (c.toNat - 48) else none
  | [c1, c2] =>
    if c1.isDigit ∧ c2.isDigit then
      (let v := 10 * (c1.toNat - 48) + (c2.toNat - 48)
       if 1 ≤ v ∧ v ≤ 12 then some v else none)
    else none
  | _ => none

/-- The year token of `strptime` pattern `%Y`: exactly four digits. -/
def yearToken : List Char → Option Nat
  | [c1, c2, c3, c4] =>
    if c1.isDigit ∧ c2.isDigit ∧ c3.isDigit ∧ c4.isDigit then
      some (natOfDigits [c1, c2, c3, c4])
    else none
  | _ => none

/-- Split a character list at every dot (the literal separators of the
`"%d.%m.%Y"` pattern). -/
def splitDots : List Char → List (List Char)
  | [] => [[]]
  | c :: rest =>
    if c = '.' then [] :: splitDots rest
    else
      match splitDots rest with
      | [] => [[c]]
      | h :: t => (c :: h) :: t

/-- `datetime.strptime(s, "%d.%m.%Y").date()`: the pattern splits the
input at the two literal dots, each token must match, the whole string
must be consumed, and the `datetime` constructor then requires a valid
calendar date with year at least 1. -/
def parseDDMMYYYY (s : String) : Option PyDate :=
  match splitDots s.toList with
  | [ds, ms, ys] =>
    match dayToken ds, monthToken ms, yearToken ys with
    | some d, some m, some y =>
      if validDate ⟨y, m, d⟩ then some ⟨y, m, d⟩ else none
    | _, _, _ => none
  | _ => none

/-- `date.replace(year = y)`: rebuilds the date with the new year and
revalidates it (this is where a Feb-29 date fails in a non-leap year). -/
def replaceYear (b : PyDate) (y : Nat) : Option PyDate :=
  if validDate ⟨y, b.month, b.day⟩ then some ⟨y, b.month, b.day⟩ else none

/-- A `Phone` field object: a mutable cell holding a string value. -/
structure Phone where
  value : String
deriving DecidableEq, Repr

/-- Codepoint ranges of the characters accepted by Python
`str.isdigit` (Unicode property Numeric_Type of Digit or Decimal),
extracted from the CPython Unicode tables: the ASCII digits, the
superscript and similar digit characters, and the decimal digits of
the non-Latin scripts. -/
def pyDigitRanges : List (Nat × Nat) := [
  (48, 57), (178, 179), (185, 185), (1632, 1641), (1776, 1785), (1984,
  1993), (2406, 2415), (2534, 2543), (2662, 2671), (2790, 2799), (2918,
  2927), (3046, 3055), (3174, 3183), (3302, 3311), (3430, 3439), (3558,
  3567), (3664, 3673), (3792, 3801), (3872, 3881), (4160, 4169), (4240,
  4249), (4969, 4977), (6112, 6121), (6160, 6169), (6470, 6479), (6608,
  6618), (6784, 6793), (6800, 6809), (6992, 7001), (7088, 7097), (7232,
  7241), (7248, 7257), (8304, 8304), (8308, 8313), (8320, 8329), (9312,
  9320), (9332, 9340), (9352, 9360), (9450, 9450), (9461, 9469), (9471,
  9471), (10102, 10110), (10112, 10120), (10122, 10130), (42528, 42537),
  (43216, 43225), (43264, 43273), (43472, 43481), (43504, 43513),
  (43600, 43609), (44016, 44025), (65296, 65305), (66720, 66729),
  (68160, 68163), (68912, 68921), (69216, 69224), (69714, 69722),
  (69734, 69743), (69872, 69881), (69942, 69951), (70096, 70105),
  (70384, 70393), (70736, 70745), (70864, 70873), (71248, 71257),
  (71360, 71369), (71472, 71481), (71904, 71913), (72016, 72025),
  (72784, 72793), (73040, 73049), (73120, 73129), (92768, 92777),
  (92864, 92873), (93008, 93017), (120782, 120831), (123200, 123209),
  (123632, 123641), (125264, 125273), (127232, 127242), (130032, 130041)
]

/-- The per-character test of `str.isdigit`. -/
def pyIsDigitChar (c : Char) : Bool :=
  pyDigitRanges.any fun p => p.1 ≤ c.toNat && c.toNat ≤ p.2

/-- `str.isdigit()`: nonempty and every character is a digit character.
This is broader than the decimal digits 0-9: for example the
superscript two and the Arabic-Indic digits also pass. -/
def pyIsDigit (s : String) : Bool :=
  !s.toList.isEmpty && s.toList.all pyIsDigitChar

/-- The `Phone` constructor: stores the value, then validates that it is
exactly 10 digit characters, raising `ValueError` otherwise. -/
def Phone.make (phone_number : String) : Except String Phone :=
  if ¬(pyIsDigit phone_number) ∨ phone_number.toList.length ≠ 10 then
    .error "Phone number must contain exactly 10 digits"
  else .ok ⟨phone_number⟩

/-- The `Birthday` constructor: parses DD.MM.YYYY and stores the parsed
calendar date, raising `ValueError` on any parse failure. -/
def Birthday.make (value : String) : Except String PyDate :=
  match parseDDMMYYYY value with
  | some d => .ok d
  | none => .error "Invalid date format. Use DD.MM.YYYY"

/-- A `Record`: name, list of phone objects, optional birthday date.
The `birthday` field holds what the Python property returns: the stored
date value, or `none`. -/
structure Record where
  name : String
  phones : List Phone
  birthday : Option PyDate
deriving DecidableEq, Repr

/-- `Record.__init__`: the `Name` field raises if the name is falsy
(the empty string). -/
def Record.make (name : String) : Except String Record :=
  if name = "" then .error "Name is a required field"
  else .ok ⟨name, [], none⟩

/-- `Record.add_phone`: validates through the `Phone` constructor and
appends unconditionally. -/
def Record.add_phone (r : Record) (phone_number : String) :
    Except String Record :=
  (Phone.make phone_number).map fun p => { r with phones := r.phones ++ [p] }

/-- `Record.remove_phone`: keeps the phones whose value differs. -/
def Record.remove_phone (r : Record) (phone_number : String) : Record :=
  { r with phones := r.phones.filter fun p => p.value ≠ phone_number }

/-- `Record.edit_phone`: assigns the new value in place in every phone
object whose value equals the old number; no validation, no error. -/
def Record.edit_phone (r : Record)
    (old_phone_number new_phone_number : String) : Record :=
  { r with
    phones := r.phones.map fun p =>
      if p.value = old_phone_number then { p with value := new_phone_number }
      else p }

/-- `Record.find_phone`: first matching value, or `None`. -/
def Record.find_phone (r : Record) (phone_number : String) : Option String :=
  (r.phones.find? fun p => p.value == phone_number).map Phone.value

/-- `Record.add_birthday`: validates through the `Birthday` constructor
and overwrites the stored birthday. -/
def Record.add_birthday (r : Record) (birthday : String) :
    Except String Record :=
  (Birthday.make birthday).map fun d => { r with birthday := some d }

/-- The `AddressBook` backing dict: association list in insertion order
with unique keys, as a Python dict. -/
structure AddressBook where
  data : List (String × Record)
deriving DecidableEq, Repr

/-- Python dict item assignment `d[k] = v`: overwrite in place when the
key exists, append otherwise. -/
def dictSet (d : List (String × Record)) (k : String) (v : Record) :
    List (String × Record) :=
  if d.any (fun p => p.1 == k) then
    d.map fun p => if p.1 == k then (k, v) else p
  else d ++ [(k, v)]

/-- `AddressBook.add_record`: `self.data[record.name.value] = record`. -/
def AddressBook.add_record (book : AddressBook) (r : Record) : AddressBook :=
  ⟨dictSet book.data r.name r⟩

/-- `AddressBook.find`: `self.data.get(name)`. -/
def AddressBook.find (book : AddressBook) (name : String) : Option Record :=
  (book.data.find? fun p => p.1 == name).map Prod.snd

/-- `AddressBook.delete`: `self.data.pop(name, None)`. -/
def AddressBook.delete (book : AddressBook) (name : String) : AddressBook :=
  ⟨book.data.filter fun p => p.1 ≠ name⟩

/-- One emitted entry of `get_upcoming_birthdays`: a dict, modelled as a
field-name / value association list.  The second key is spelled exactly
as in the source, with a trailing colon inside the string. -/
abbrev Entry := List (String × String)

/-- The dict literal appended for one user. -/
def mkEntry (user : String) (d : PyDate) : Entry :=
  [("name", user), ("congratulation_date:", formatDate d)]

/-- The weekend adjustment: if the date falls on Saturday or Sunday
(weekday 5 or 6), add `7 - weekday` days, landing on the next Monday. -/
def weekendShift (d : PyDate) : PyDate :=
  if 5 ≤ weekday d then addDays d (7 - weekday d) else d

/-- The loop body of `get_upcoming_birthdays` over the dict items:
skip records without a birthday; `replace(year=...)` may raise, which
aborts the whole call; otherwise append the entry when the comparison
date is strictly after `current` and at most 7 days ahead. -/
def collectUpcoming (current : PyDate) :
    List (String × Record) → Except String (List Entry)
  | [] => .ok []
  | (user, r) :: rest =>
    match r.birthday with
    | none => collectUpcoming current rest
    | some b =>
      match replaceYear b current.year with
      | none => .error "day is out of range for month"
      | some cmp =>
        (collectUpcoming current rest).map fun tail =>
          if pyLt current cmp ∧ pyLe cmp (addDays current 7) then
            mkEntry user (weekendShift cmp) :: tail
          else tail

/-- `AddressBook.get_upcoming_birthdays`; `current` stands for the
`datetime.today().date()` read. -/
def AddressBook.get_upcoming_birthdays (book : AddressBook)
    (current : PyDate) : Except String (List Entry) :=
  collectUpcoming current book.data

/-- Message the `input_error` decorator returns for `ValueError`. -/
def valueErrorMsg : String :=
  "Error: Command requires exactly 2 arguments (name and phone/birthday)."

/-- Message the `input_error` decorator returns for `KeyError`. -/
def keyErrorMsg : String :=
  "Error: No contact with this name was found in the dictation"

/-- The `add` command handler `add_contact(args, contacts)`: find or
create the record, then add the phone when it is nonempty and not
already present.  Mutations performed before an exception persist. -/
def add_contact (name phone : String) (book : AddressBook) :
    String × AddressBook :=
  match book.find name with
  | some r =>
    if phone ≠ "" ∧ r.find_phone phone = none then
      match Phone.make phone with
      | .ok p =>
        ("Contact updated.", book.add_record { r with phones := r.phones ++ [p] })
      | .error _ => (valueErrorMsg, book)
    else ("Contact updated.", book)
  | none =>
    match Record.make name with
    | .error _ => (valueErrorMsg, book)
    | .ok r =>
      let book1 := book.add_record r
      if phone ≠ "" ∧ r.find_phone phone = none then
        match Phone.make phone with
        | .ok p =>
          ("Contact added.", book1.add_record { r with phones := r.phones ++ [p] })
        | .error _ => (valueErrorMsg, book1)
      else ("Contact added.", book1)

/-- The `add-birthday` command handler: `contacts[name]` raises
`KeyError` when absent; the `Birthday` constructor may raise
`ValueError`; both are turned into messages by the decorator. -/
def add_birthday (name birthday : String) (book : AddressBook) :
    String × AddressBook :=
  match book.find name with
  | none => (keyErrorMsg, book)
  | some r =>
    match Birthday.make birthday with
    | .error _ => (valueErrorMsg, book)
    | .ok d =>
      ("Birthday has been added for " ++ name,
        book.add_record { r with birthday := some d })

/-- The `show-birthday` command handler, composed with the `print` in
the main loop: the handler returns `contacts[name].birthday` (a raw
`date` object or `None`), and printing it surfaces `str()` of that
value, i.e. the ISO form for a date. -/
def show_birthday (name : String) (book : AddressBook) : String :=
  match book.find name with
  | none => keyErrorMsg
  | some r =>
    match r.birthday with
    | none => "None"
    | some d => isoStr d

/-! Spec-side predicates, written from the wording of the specification,
to be compared against the embedded code. -/

/-- Spec wording for the birthday format: a 2-digit day, a 2-digit
month and a 4-digit year in the DD.MM.YYYY pattern. -/
def strictPattern (s : String) : Bool :=
  match s.toList with
  | [d1, d2, '.', m1, m2, '.', y1, y2, y3, y4] =>
    d1.isDigit && d2.isDigit && m1.isDigit && m2.isDigit &&
      y1.isDigit && y2.isDigit && y3.isDigit && y4.isDigit
  | _ => false

/-- Spec wording for phone validity: exactly 10 decimal digit
characters. -/
def tenDecimalDigits (s : String) : Prop :=
  s.toList.length = 10 ∧ ∀ c ∈ s.toList, '0' ≤ c ∧ c ≤ '9'

instance (s : String) : Decidable (tenDecimalDigits s) := by
  unfold tenDecimalDigits; exact inferInstance

/-! Theorems about the claims. -/

/-- C3: the claim says every emitted element has exactly the two fields
`name` and `congratulation_date`.  Evaluating the code on a concrete
reachable state shows the second field is actually spelled with a
trailing colon, `congratulation_date:`, while the value is indeed the
weekend-shifted date in DD.MM.YYYY form. -/
theorem c3_entry_field_names :
    ((add_birthday "Bob" "15.06.1990"
        ((add_contact "Bob" "1234567890" ⟨[]⟩).2)).2).get_upcoming_birthdays
        ⟨2024, 6, 10⟩ =
      Except.ok [[("name", "Bob"), ("congratulation_date:", "17.06.2024")]] ∧
    (["name", "congratulation_date:"] : List String) ≠
      ["name", "congratulation_date"] := by
  decide

/-- C5 counterexample: the input `1.1.1990` is not in the 2-digit-day,
2-digit-month, 4-digit-year pattern the claim requires, yet the
`Birthday` constructor accepts it, because the underlying `strptime`
day and month directives also match single digits. -/
theorem c5_counterexample :
    strictPattern "1.1.1990" = false ∧
    Birthday.make "1.1.1990" = Except.ok ⟨1990, 1, 1⟩ := by
  decide

/-- C6 counterexample: calling `add_phone` twice with the same number
on a fresh record stores two entries, not one; deduplication does not
happen at the `Record` level. -/
theorem c6_counterexample :
    ((Record.make "Bob").bind fun r =>
        (r.add_phone "1234567890").bind fun r1 =>
          r1.add_phone "1234567890")
      = Except.ok
          (Record.mk "Bob"
            [Phone.mk "1234567890", Phone.mk "1234567890"] none) ∧
    ¬([Phone.mk "1234567890", Phone.mk "1234567890"].length = 1) := by
  decide

/-- C7 counterexample: `edit_phone` does not validate the new number.
Editing a stored valid phone to the string `abc` succeeds and stores
`abc`, even though `abc` fails `Phone` validation, instead of failing
with a `ValidationError` as the claim states. -/
theorem c7_counterexample :
    Record.edit_phone ⟨"Bob", [⟨"1234567890"⟩], none⟩ "1234567890" "abc"
      = ⟨"Bob", [⟨"abc"⟩], none⟩ ∧
    (Phone.make "abc").isOk = false := by
  decide

/-- C9: on a reachable state holding the birthday 01.01.1990 for Bob,
the show-birthday handler surfaces the raw date value, which prints in
ISO form `1990-01-01`, not in the claimed `01.01.1990` form (which is
what `strftime` formatting would have produced). -/
theorem c9_show_birthday_surfaces_iso :
    show_birthday "Bob"
        ((add_birthday "Bob" "01.01.1990"
          ((add_contact "Bob" "1234567890" ⟨[]⟩).2)).2) = "1990-01-01" ∧
    ("1990-01-01" : String) ≠ "01.01.1990" ∧
    formatDate ⟨1990, 1, 1⟩ = "01.01.1990" := by
  decide

/-- C10: a Feb-29 birthday is storable (2020 is a leap year), and on a
book reachable through the command handlers, `get_upcoming_birthdays`
raises (returns an error) when the current year, 2023, is not a leap
year, because `replace(year=...)` fails before any comparison. -/
theorem c10_feb29_nonleap_raises :
    isLeap 2023 = false ∧
    Birthday.make "29.02.2020" = Except.ok ⟨2020, 2, 29⟩ ∧
    ((add_birthday "Bob" "29.02.2020"
        ((add_contact "Bob" "1234567890" ⟨[]⟩).2)).2).get_upcoming_birthdays
        ⟨2023, 2, 20⟩ = Except.error "day is out of range for month" := by
  decide

/-- Helper: unfolding of the embedded `str.isdigit`. -/
theorem pyIsDigit_iff (s : String) :
    pyIsDigit s = true ↔
      (s.toList ≠ [] ∧ ∀ c ∈ s.toList, pyIsDigitChar c = true) := by
  unfold pyIsDigit
  simp

/-- Helper: every decimal digit character passes the Python digit
test, through the ASCII range of the table. -/
theorem pyIsDigitChar_decimal (c : Char) (h1 : '0' ≤ c) (h2 : c ≤ '9') :
    pyIsDigitChar c = true := by
  rw [Char.le_def, UInt32.le_def, BitVec.le_def] at h1 h2
  unfold pyIsDigitChar
  rw [List.any_eq_true]
  refine ⟨(48, 57), by decide, ?_⟩
  rw [Bool.and_eq_true]
  exact ⟨by exact decide_eq_true h1, by exact decide_eq_true h2⟩

/-- C4 counterexample: the string of ten superscript-two characters is
not made of decimal digit characters, yet the `Phone` constructor
accepts it, because `str.isdigit` also accepts non-decimal Unicode
digit characters. -/
theorem c4_counterexample :
    (Phone.make "²²²²²²²²²²").isOk = true ∧
    ¬tenDecimalDigits "²²²²²²²²²²" := by
  decide

/-- C4 amended: `Phone` validation is by length 10 plus the Python
digit test, which is broader than the decimal digits: construction
succeeds on every string of 10 decimal digit characters, fails when
the length differs from 10 or some character is not a digit character,
also accepts 10 non-decimal digit characters such as the superscript
twos, and behaves as claimed on the three examples. -/
theorem c4_amended :
    (∀ s : String, tenDecimalDigits s → (Phone.make s).isOk = true) ∧
    (∀ s : String, s.toList.length ≠ 10 → (Phone.make s).isOk = false) ∧
    (∀ (s : String) (c : Char), c ∈ s.toList → pyIsDigitChar c = false →
      (Phone.make s).isOk = false) ∧
    (Phone.make "²²²²²²²²²²").isOk = true ∧
    (Phone.make "12345").isOk = false ∧
    (Phone.make "1234567890").isOk = true ∧
    (Phone.make "12345abcde").isOk = false := by
  refine ⟨?_, ?_, ?_, by decide, by decide, by decide, by decide⟩
  · intro s hs
    obtain ⟨hlen, hall⟩ := hs
    unfold Phone.make
    rw [if_neg ?_]
    · rfl
    · rintro (hnd | hl)
      · apply hnd
        rw [pyIsDigit_iff]
        refine ⟨?_, ?_⟩
        · intro h0; rw [h0] at hlen; simp at hlen
        · intro c hc
          exact pyIsDigitChar_decimal c (hall c hc).1 (hall c hc).2
      · exact hl hlen
  · intro s hlen
    unfold Phone.make
    rw [if_pos (Or.inr hlen)]
    rfl
  · intro s c hc hnd
    unfold Phone.make
    rw [if_pos (Or.inl ?_)]
    · rfl
    · intro hdig
      rw [pyIsDigit_iff] at hdig
      have hcd := hdig.2 c hc
      rw [hnd] at hcd
      cases hcd

/-- Witness for the amended C4 claim: the valid 10-decimal-digit
example is accepted, through the universal acceptance part. -/
theorem c4_amended_witness : (Phone.make "1234567890").isOk = true :=
  c4_amended.1 "1234567890" (by decide)

/-- C5 amended: the `Birthday` constructor rejects calendar-invalid and
malformed inputs, accepts the documented valid input as well as
single-digit day and month (the lenient `strptime` pattern), always
stores a valid calendar date, and the stored date formats back to the
canonical DD.MM.YYYY form. -/
theorem c5_amended :
    (Birthday.make "31.02.2020").isOk = false ∧
    (Birthday.make "1990-01-01").isOk = false ∧
    (Birthday.make "aa.bb.cccc").isOk = false ∧
    Birthday.make "1.1.1990" = Except.ok ⟨1990, 1, 1⟩ ∧
    Birthday.make "01.01.1990" = Except.ok ⟨1990, 1, 1⟩ ∧
    formatDate ⟨1990, 1, 1⟩ = "01.01.1990" ∧
    (∀ (s : String) (d : PyDate),
      Birthday.make s = Except.ok d → validDate d) := by
  refine ⟨by decide, by decide, by decide, by decide, by decide, by decide, ?_⟩
  intro s d h
  unfold Birthday.make at h
  rcases hp : parseDDMMYYYY s with _ | d0
  · rw [hp] at h; cases h
  · rw [hp] at h
    cases h
    unfold parseDDMMYYYY at hp
    split at hp
    · split at hp
      · split at hp
        · cases hp; assumption
        · cases hp
      · cases hp
    · cases hp

/-- Witness for the hypothesis-bearing part of the amended C5 claim:
the date stored for the input 01.01.1990 is a valid calendar date. -/
theorem c5_amended_witness : validDate ⟨1990, 1, 1⟩ :=
  c5_amended.2.2.2.2.2.2 "01.01.1990" ⟨1990, 1, 1⟩ (by decide)

/-- Helper: a successful `Phone` construction stores the input string. -/
theorem Phone_make_ok_val (s : String) (h : (Phone.make s).isOk = true) :
    Phone.make s = Except.ok ⟨s⟩ := by
  unfold Phone.make at h ⊢
  split at h
  next hc => cases h
  next hc => rw [if_neg hc]

/-- Helper: a valid phone string is nonempty. -/
theorem Phone_make_ne_empty (s : String) (h : (Phone.make s).isOk = true) :
    s ≠ "" := by
  intro h0
  rw [h0] at h
  exact absurd h (by decide)

/-- Helper: overwriting an existing key leaves the overwritten pair
findable. -/
theorem find?_map_set (k : String) (v : Record) (l : List (String × Record))
    (h : l.any (fun p => p.1 == k) = true) :
    (l.map fun p => if p.1 == k then (k, v) else p).find? (fun p => p.1 == k)
      = some (k, v) := by
  induction l with
  | nil => cases h
  | cons a t ih =>
    simp only [List.map_cons]
    by_cases ha : a.1 == k
    · rw [if_pos ha]
      simp [List.find?]
    · rw [if_neg ha]
      rw [List.find?_cons_of_neg _ (by simp [ha])]
      apply ih
      simp only [List.any_cons, ha, Bool.false_or] at h
      exact h

/-- Helper: a pair appended behind unmatched keys is found. -/
theorem find?_append_new (k : String) (v : Record) (l : List (String × Record))
    (h : l.any (fun p => p.1 == k) = false) :
    (l ++ [(k, v)]).find? (fun p => p.1 == k) = some (k, v) := by
  induction l with
  | nil => simp [List.find?]
  | cons a t ih =>
    simp only [List.any_cons, Bool.or_eq_false_iff] at h
    rw [List.cons_append, List.find?_cons_of_neg _ (by simp [h.1])]
    exact ih h.2

/-- Helper: after `add_record`, looking the record up by its name
returns it. -/
theorem find_add_record (book : AddressBook) (r : Record) :
    (book.add_record r).find r.name = some r := by
  unfold AddressBook.add_record AddressBook.find dictSet
  by_cases h : book.data.any (fun p => p.1 == r.name) = true
  · rw [if_pos h, find?_map_set r.name r book.data h]
    rfl
  · rw [if_neg h, find?_append_new r.name r book.data (Bool.eq_false_iff.mpr h)]
    rfl

/-- C6 amended: de-duplication lives in the `add` command handler, not
in `Record.add_phone`; running the handler twice with the same name and
a valid phone, starting from a book without that name, leaves exactly
one stored phone entry. -/
theorem c6_amended (book : AddressBook) (name phone : String)
    (hname : name ≠ "") (hvalid : (Phone.make phone).isOk = true)
    (habs : book.find name = none) :
    ((add_contact name phone ((add_contact name phone book).2)).2).find name
      = some ⟨name, [⟨phone⟩], none⟩ := by
  have hne : phone ≠ "" := Phone_make_ne_empty phone hvalid
  have hpm : Phone.make phone = Except.ok ⟨phone⟩ := Phone_make_ok_val phone hvalid
  have hmk : Record.make name = Except.ok ⟨name, [], none⟩ := by
    unfold Record.make; rw [if_neg hname]
  have h1 : (add_contact name phone book).2
      = (book.add_record ⟨name, [], none⟩).add_record ⟨name, [⟨phone⟩], none⟩ := by
    unfold add_contact
    rw [habs, hmk]
    show (if phone ≠ "" ∧ Record.find_phone ⟨name, [], none⟩ phone = none then
        match Phone.make phone with
        | .ok p =>
          ("Contact added.",
            (book.add_record ⟨name, [], none⟩).add_record
              ⟨name, [] ++ [p], none⟩)
        | .error _ =>
          (valueErrorMsg, book.add_record ⟨name, [], none⟩)
      else ("Contact added.", book.add_record ⟨name, [], none⟩)).2 = _
    rw [if_pos ⟨hne, rfl⟩, hpm]
    rfl
  rw [h1]
  have hfind2 : ((book.add_record ⟨name, [], none⟩).add_record
      ⟨name, [⟨phone⟩], none⟩).find name = some ⟨name, [⟨phone⟩], none⟩ :=
    find_add_record _ _
  unfold add_contact
  rw [hfind2]
  show (if phone ≠ "" ∧ Record.find_phone ⟨name, [⟨phone⟩], none⟩ phone = none then _
      else ("Contact updated.",
        (book.add_record ⟨name, [], none⟩).add_record
          ⟨name, [⟨phone⟩], none⟩)).2.find name = _
  rw [if_neg ?_]
  · exact hfind2
  · rintro ⟨_, hc⟩
    rw [show Record.find_phone ⟨name, [⟨phone⟩], none⟩ phone = some phone by
      simp [Record.find_phone, List.find?]] at hc
    cases hc

/-- Witness for the amended C6 claim at a concrete input: adding Bob
with the same phone twice, starting from the empty book, stores exactly
one phone entry. -/
theorem c6_amended_witness :
    ((add_contact "Bob" "1234567890"
        ((add_contact "Bob" "1234567890" (AddressBook.mk [])).2)).2).find "Bob"
      = some ⟨"Bob", [⟨"1234567890"⟩], none⟩ :=
  c6_amended ⟨[]⟩ "Bob" "1234567890" (by decide) (by decide) (by decide)

/-- C7 amended: `edit_phone` never fails and performs no validation of
the new number: it preserves the length of the phone list, overwrites
the value of every entry equal to the old number with the new string,
and leaves every other entry unchanged. -/
theorem c7_amended (r : Record) (old new : String) :
    (r.edit_phone old new).phones.length = r.phones.length ∧
    (∀ i, (hi : i < r.phones.length) →
      (r.phones[i].value = old →
          (r.edit_phone old new).phones[i]? = some ⟨new⟩) ∧
      (r.phones[i].value ≠ old →
          (r.edit_phone old new).phones[i]? = some (r.phones[i]))) := by
  unfold Record.edit_phone
  refine ⟨by simp, ?_⟩
  intro i hi
  constructor
  · intro hv
    rw [List.getElem?_map, List.getElem?_eq_getElem hi]
    simp [hv]
  · intro hv
    rw [List.getElem?_map, List.getElem?_eq_getElem hi]
    simp [hv]

/-- Witness for the amended C7 claim: editing the only stored phone to
another string replaces it in place, without any validation failure. -/
theorem c7_amended_witness :
    (Record.edit_phone ⟨"Bob", [⟨"1234567890"⟩], none⟩
        "1234567890" "0000000000").phones[0]? = some ⟨"0000000000"⟩ :=
  ((c7_amended ⟨"Bob", [⟨"1234567890"⟩], none⟩ "1234567890" "0000000000").2
    0 (by decide)).1 (by decide)

/-- C8: when no stored phone equals the old number, `edit_phone`
returns the record unchanged (same entries in the same order) and does
not fail. -/
theorem c8_edit_phone_frame (r : Record) (old new : String)
    (h : ∀ p ∈ r.phones, p.value ≠ old) :
    r.edit_phone old new = r := by
  suffices hmap : ∀ l : List Phone, (∀ p ∈ l, p.value ≠ old) →
      (l.map fun p =>
        if p.value = old then { p with value := new } else p) = l by
    unfold Record.edit_phone
    rw [hmap r.phones h]
  intro l hl
  induction l with
  | nil => rfl
  | cons a t ih =>
    simp only [List.map_cons]
    rw [if_neg (hl a (by simp))]
    rw [ih fun p hp => hl p (by simp [hp])]

/-- Witness for C8: editing a number that is not stored leaves the
record as it was. -/
theorem c8_edit_phone_frame_witness :
    Record.edit_phone ⟨"Bob", [⟨"1234567890"⟩], none⟩
        "9999999999" "0000000000" = ⟨"Bob", [⟨"1234567890"⟩], none⟩ :=
  c8_edit_phone_frame ⟨"Bob", [⟨"1234567890"⟩], none⟩
    "9999999999" "0000000000" (by decide)

/-- Helper: every month has at least one day. -/
theorem one_le_daysInMonth (y m : Nat) : 1 ≤ daysInMonth y m := by
  unfold daysInMonth
  split
  · split <;> omega
  · split <;> omega

/-- Helper: unrolling of the cumulative month-length sum. -/
theorem dBM_succ (y m : Nat) (h : 1 ≤ m) :
    daysBeforeMonth y (m + 1) = daysBeforeMonth y m + daysInMonth y m := by
  cases m with
  | zero => omega
  | succ k => rfl

/-- Helper: days before December: 334, or 335 in a leap year. -/
theorem dBM_12 (y : Nat) :
    daysBeforeMonth y 12 = if isLeap y then 335 else 334 := by
  cases hL : isLeap y <;>
    simp [daysBeforeMonth, daysInMonth, hL]

set_option maxHeartbeats 1000000 in
/-- Helper: a year contributes 366 days when leap, else 365. -/
theorem dBY_succ (y : Nat) (hy : 1 ≤ y) :
    daysBeforeYear (y + 1)
      = daysBeforeYear y + (if isLeap y then 366 else 365) := by
  unfold daysBeforeYear isLeap
  by_cases h4 : y % 4 = 0 <;> by_cases h100 : y % 100 = 0 <;>
    by_cases h400 : y % 400 = 0 <;>
      simp [h4, h100, h400] <;> omega

/-- Helper: the successor of a valid date is valid. -/
theorem validDate_nextDay (d : PyDate) (h : validDate d) :
    validDate (nextDay d) := by
  obtain ⟨hy, hm1, hm2, hd1, hd2⟩ := h
  unfold nextDay
  split
  next hlt =>
    refine ⟨?_, ?_, ?_, ?_, ?_⟩ <;> dsimp only <;> omega
  next hlt =>
    split
    next hm =>
      have h1 : 1 ≤ daysInMonth d.year (d.month + 1) := one_le_daysInMonth _ _
      refine ⟨?_, ?_, ?_, ?_, ?_⟩ <;> dsimp only <;> omega
    next hm =>
      have h1 : daysInMonth (d.year + 1) 1 = 31 := by simp [daysInMonth]
      refine ⟨?_, ?_, ?_, ?_, ?_⟩ <;> dsimp only <;> omega

/-- Helper: the successor day has the next ordinal. -/
theorem toOrdinal_nextDay (d : PyDate) (h : validDate d) :
    toOrdinal (nextDay d) = toOrdinal d + 1 := by
  obtain ⟨hy, hm1, hm2, hd1, hd2⟩ := h
  unfold nextDay
  split
  next hlt =>
    unfold toOrdinal
    dsimp only
    omega
  next hlt =>
    split
    next hm =>
      unfold toOrdinal
      dsimp only
      rw [dBM_succ d.year d.month hm1]
      omega
    next hm =>
      have hm12 : d.month = 12 := by omega
      have h31 : daysInMonth d.year 12 = 31 := by simp [daysInMonth]
      rw [hm12] at hd2 hlt
      have hd31 : d.day = 31 := by omega
      unfold toOrdinal
      dsimp only
      rw [hm12, hd31, dBM_12, dBY_succ d.year hy]
      have h1 : daysBeforeMonth (d.year + 1) 1 = 0 := rfl
      rw [h1]
      split <;> omega

/-- Helper: adding days preserves validity. -/
theorem validDate_addDays (d : PyDate) (k : Nat) (h : validDate d) :
    validDate (addDays d k) := by
  induction k with
  | zero => exact h
  | succ n ih => exact validDate_nextDay _ ih

/-- Helper: adding days adds to the ordinal. -/
theorem toOrdinal_addDays (d : PyDate) (k : Nat) (h : validDate d) :
    toOrdinal (addDays d k) = toOrdinal d + k := by
  induction k with
  | zero => rfl
  | succ n ih =>
    show toOrdinal (nextDay (addDays d n)) = toOrdinal d + (n + 1)
    rw [toOrdinal_nextDay _ (validDate_addDays d n h), ih]
    omega

/-- Helper: the weekday advances modulo 7 when adding days. -/
theorem weekday_addDays (d : PyDate) (k : Nat) (h : validDate d) :
    weekday (addDays d k) = (weekday d + k) % 7 := by
  unfold weekday
  rw [toOrdinal_addDays d k h]
  omega

/-- Helper: weekdays range over 0..6. -/
theorem weekday_lt_7 (d : PyDate) : weekday d < 7 := by
  unfold weekday
  omega

/-- Helper: every date precedes its successor day. -/
theorem pyLt_nextDay (d : PyDate) : pyLt d (nextDay d) := by
  unfold nextDay pyLt
  split
  · dsimp only; right; exact ⟨rfl, Or.inr ⟨rfl, by omega⟩⟩
  · split
    · dsimp only; right; exact ⟨rfl, Or.inl (by omega)⟩
    · dsimp only; left; omega

/-- Helper: the date order is transitive. -/
theorem pyLt_trans (a b c : PyDate) (h1 : pyLt a b) (h2 : pyLt b c) :
    pyLt a c := by
  unfold pyLt at h1 h2 ⊢
  omega

/-- Helper: adding at least one day moves strictly forward. -/
theorem pyLt_addDays_pos (d : PyDate) (k : Nat) :
    pyLt d (addDays d (k + 1)) := by
  induction k with
  | zero => exact pyLt_nextDay d
  | succ n ih =>
    exact pyLt_trans _ _ _ ih (pyLt_nextDay (addDays d (n + 1)))
/-- Helper: the name field of an emitted entry. -/
theorem lookup_mkEntry_name (u : String) (d : PyDate) :
    (mkEntry u d).lookup "name" = some u := rfl

/-- Helper: the congratulation field of an emitted entry. -/
theorem lookup_mkEntry_congrat (u : String) (d : PyDate) :
    (mkEntry u d).lookup "congratulation_date:" = some (formatDate d) := rfl

/-- Helper: a successful year replacement yields a valid date. -/
theorem replaceYear_valid (b : PyDate) (y : Nat) (cmp : PyDate)
    (h : replaceYear b y = some cmp) : validDate cmp := by
  unfold replaceYear at h
  split at h
  · cases h; assumption
  · cases h

/-- Helper: every emitted entry takes its name from the book. -/
theorem collect_names_sub (current : PyDate) :
    ∀ (l : List (String × Record)) (res : List Entry),
      collectUpcoming current l = Except.ok res →
      ∀ e ∈ res, ∃ nm, e.lookup "name" = some nm ∧ nm ∈ l.map Prod.fst := by
  intro l
  induction l with
  | nil =>
    intro res h e he
    injection h with h
    subst h
    cases he
  | cons a rest ih =>
    intro res h e he
    obtain ⟨u, r0⟩ := a
    simp only [collectUpcoming] at h
    cases hb0 : r0.birthday with
    | none =>
      simp only [hb0] at h
      obtain ⟨nm, h1, h2⟩ := ih res h e he
      exact ⟨nm, h1, by simp only [List.map_cons]; exact List.mem_cons_of_mem _ h2⟩
    | some b0 =>
      simp only [hb0] at h
      cases hrep : replaceYear b0 current.year with
      | none => rw [hrep] at h; cases h
      | some cmp0 =>
        simp only [hrep] at h
        cases hrest : collectUpcoming current rest with
        | error e0 => rw [hrest] at h; cases h
        | ok tail =>
          rw [hrest] at h
          simp only [Except.map] at h
          injection h with h
          subst h
          by_cases hin : pyLt current cmp0 ∧ pyLe cmp0 (addDays current 7)
          · rw [if_pos hin] at he
            rcases List.mem_cons.mp he with he1 | he2
            · subst he1
              exact ⟨u, lookup_mkEntry_name u _, by simp⟩
            · obtain ⟨nm, h1, h2⟩ := ih tail hrest e he2
              exact ⟨nm, h1, by simp only [List.map_cons]; exact List.mem_cons_of_mem _ h2⟩
          · rw [if_neg hin] at he
            obtain ⟨nm, h1, h2⟩ := ih tail hrest e he
            exact ⟨nm, h1, by simp only [List.map_cons]; exact List.mem_cons_of_mem _ h2⟩
/-- Helper: with unique keys, an entry for a given contact appears in
the output of the birthday loop exactly when its comparison date lies
in the half-open 7-day window after the current date. -/
theorem collect_mem_iff_aux (current : PyDate) (name : String) (r : Record)
    (b cmp : PyDate) (hb : r.birthday = some b)
    (hcmp : replaceYear b current.year = some cmp) :
    ∀ (l : List (String × Record)) (res : List Entry),
      (l.map Prod.fst).Nodup → (name, r) ∈ l →
      collectUpcoming current l = Except.ok res →
      ((∃ e ∈ res, e.lookup "name" = some name) ↔
        (pyLt current cmp ∧ pyLe cmp (addDays current 7))) := by
  intro l
  induction l with
  | nil => intro res _ hmem _; cases hmem
  | cons a rest ih =>
    intro res hnodup hmem hok
    obtain ⟨u, r0⟩ := a
    simp only [List.map_cons, List.nodup_cons] at hnodup
    obtain ⟨hu_not, hnodup2⟩ := hnodup
    rcases List.mem_cons.mp hmem with heq | hmem2
    · cases heq
      simp only [collectUpcoming, hb, hcmp] at hok
      cases hrest : collectUpcoming current rest with
      | error e0 => rw [hrest] at hok; cases hok
      | ok tail =>
        rw [hrest] at hok
        simp only [Except.map] at hok
        injection hok with hok
        subst hok
        by_cases hin : pyLt current cmp ∧ pyLe cmp (addDays current 7)
        · rw [if_pos hin]
          exact iff_of_true
            ⟨mkEntry name (weekendShift cmp), List.mem_cons_self _ _,
              lookup_mkEntry_name name _⟩ hin
        · rw [if_neg hin]
          refine iff_of_false ?_ hin
          rintro ⟨e, he, hlook⟩
          obtain ⟨nm, h1, h2⟩ := collect_names_sub current rest tail hrest e he
          rw [h1] at hlook
          injection hlook with hlook
          subst hlook
          exact hu_not h2
    · have hname_ne : name ≠ u := by
        intro h0
        apply hu_not
        rw [← h0]
        exact List.mem_map_of_mem Prod.fst hmem2
      simp only [collectUpcoming] at hok
      cases hb0 : r0.birthday with
      | none =>
        simp only [hb0] at hok
        exact ih res hnodup2 hmem2 hok
      | some b0 =>
        simp only [hb0] at hok
        cases hrep0 : replaceYear b0 current.year with
        | none => rw [hrep0] at hok; cases hok
        | some cmp0 =>
          simp only [hrep0] at hok
          cases hrest : collectUpcoming current rest with
          | error e0 => rw [hrest] at hok; cases hok
          | ok tail =>
            rw [hrest] at hok
            simp only [Except.map] at hok
            injection hok with hok
            subst hok
            have hiff := ih tail hnodup2 hmem2 hrest
            by_cases hin0 : pyLt current cmp0 ∧ pyLe cmp0 (addDays current 7)
            · rw [if_pos hin0]
              rw [← hiff]
              constructor
              · rintro ⟨e, he, hlook⟩
                rcases List.mem_cons.mp he with he1 | he2
                · subst he1
                  rw [lookup_mkEntry_name] at hlook
                  injection hlook with h0
                  exact absurd h0.symm hname_ne
                · exact ⟨e, he2, hlook⟩
              · rintro ⟨e, he, hlook⟩
                exact ⟨e, List.mem_cons_of_mem _ he, hlook⟩
            · rw [if_neg hin0]
              exact hiff

/-- Helper: an in-window contact contributes its (shifted) entry. -/
theorem collect_mem_entry (current : PyDate) (name : String) (r : Record)
    (b cmp : PyDate) (hb : r.birthday = some b)
    (hcmp : replaceYear b current.year = some cmp)
    (hin : pyLt current cmp ∧ pyLe cmp (addDays current 7)) :
    ∀ (l : List (String × Record)) (res : List Entry),
      (name, r) ∈ l →
      collectUpcoming current l = Except.ok res →
      mkEntry name (weekendShift cmp) ∈ res := by
  intro l
  induction l with
  | nil => intro res hmem _; cases hmem
  | cons a rest ih =>
    intro res hmem hok
    obtain ⟨u, r0⟩ := a
    rcases List.mem_cons.mp hmem with heq | hmem2
    · cases heq
      simp only [collectUpcoming, hb, hcmp] at hok
      cases hrest : collectUpcoming current rest with
      | error e0 => rw [hrest] at hok; cases hok
      | ok tail =>
        rw [hrest] at hok
        simp only [Except.map] at hok
        injection hok with hok
        subst hok
        rw [if_pos hin]
        exact List.mem_cons_self _ _
    · simp only [collectUpcoming] at hok
      cases hb0 : r0.birthday with
      | none =>
        simp only [hb0] at hok
        exact ih res hmem2 hok
      | some b0 =>
        simp only [hb0] at hok
        cases hrep0 : replaceYear b0 current.year with
        | none => rw [hrep0] at hok; cases hok
        | some cmp0 =>
          simp only [hrep0] at hok
          cases hrest : collectUpcoming current rest with
          | error e0 => rw [hrest] at hok; cases hok
          | ok tail =>
            rw [hrest] at hok
            simp only [Except.map] at hok
            injection hok with hok
            subst hok
            have hmemtail := ih tail hmem2 hrest
            by_cases hin0 : pyLt current cmp0 ∧ pyLe cmp0 (addDays current 7)
            · rw [if_pos hin0]
              exact List.mem_cons_of_mem _ hmemtail
            · rw [if_neg hin0]
              exact hmemtail
/-- C1: for a stored record with a birthday, the record is included in
a successful run of `get_upcoming_birthdays` if and only if the
comparison date (the birthday carried to the current year) is strictly
after the current date and at most 7 days ahead; equality with the
current date falls outside the window, 7 days ahead falls inside,
8 days ahead falls outside. -/
theorem c1_upcoming_membership_iff
    (current : PyDate) (book : AddressBook) (name : String) (r : Record)
    (b cmp : PyDate) (res : List Entry)
    (hnodup : (book.data.map Prod.fst).Nodup)
    (hmem : (name, r) ∈ book.data)
    (hb : r.birthday = some b)
    (hcmp : replaceYear b current.year = some cmp)
    (hok : book.get_upcoming_birthdays current = Except.ok res) :
    (∃ e ∈ res, e.lookup "name" = some name) ↔
      (pyLt current cmp ∧ pyLe cmp (addDays current 7)) :=
  collect_mem_iff_aux current name r b cmp hb hcmp book.data res hnodup hmem hok

/-- Witness for C1: the Bob book on 10.06.2024, where the comparison
date 15.06.2024 is 5 days ahead, hence included. -/
theorem c1_upcoming_membership_iff_witness :
    (∃ e ∈ ([[("name", "Bob"), ("congratulation_date:", "17.06.2024")]] :
        List Entry), e.lookup "name" = some "Bob") ↔
      (pyLt ⟨2024, 6, 10⟩ ⟨2024, 6, 15⟩ ∧
        pyLe ⟨2024, 6, 15⟩ (addDays ⟨2024, 6, 10⟩ 7)) :=
  c1_upcoming_membership_iff ⟨2024, 6, 10⟩
    ⟨[("Bob", ⟨"Bob", [⟨"1234567890"⟩], some ⟨1990, 6, 15⟩⟩)]⟩
    "Bob" ⟨"Bob", [⟨"1234567890"⟩], some ⟨1990, 6, 15⟩⟩
    ⟨1990, 6, 15⟩ ⟨2024, 6, 15⟩
    [[("name", "Bob"), ("congratulation_date:", "17.06.2024")]]
    (by decide) (by decide) (by decide) (by decide) (by decide)

/-- C2: whenever the comparison date of an included contact falls on a
Saturday or a Sunday, the emitted congratulation date is the date
`7 - weekday` days later, which is a Monday strictly after the
comparison date (shifted forward, never back to the Friday before). -/
theorem c2_weekend_shift_monday
    (current : PyDate) (book : AddressBook) (name : String) (r : Record)
    (b cmp : PyDate) (res : List Entry)
    (hmem : (name, r) ∈ book.data)
    (hb : r.birthday = some b)
    (hcmp : replaceYear b current.year = some cmp)
    (hok : book.get_upcoming_birthdays current = Except.ok res)
    (hwk : 5 ≤ weekday cmp)
    (hin : pyLt current cmp ∧ pyLe cmp (addDays current 7)) :
    ∃ e ∈ res,
      e.lookup "name" = some name ∧
      e.lookup "congratulation_date:"
        = some (formatDate (addDays cmp (7 - weekday cmp))) ∧
      weekday (addDays cmp (7 - weekday cmp)) = 0 ∧
      pyLt cmp (addDays cmp (7 - weekday cmp)) := by
  have hvcmp : validDate cmp := replaceYear_valid b current.year cmp hcmp
  have hshift : weekendShift cmp = addDays cmp (7 - weekday cmp) := by
    unfold weekendShift
    rw [if_pos hwk]
  have hentry := collect_mem_entry current name r b cmp hb hcmp hin
    book.data res hmem hok
  refine ⟨mkEntry name (weekendShift cmp), hentry,
    lookup_mkEntry_name name _, ?_, ?_, ?_⟩
  · rw [hshift]
    exact lookup_mkEntry_congrat name _
  · have hw7 : weekday cmp < 7 := weekday_lt_7 cmp
    rw [weekday_addDays cmp _ hvcmp]
    omega
  · have hk : 7 - weekday cmp = (6 - weekday cmp) + 1 := by
      have := weekday_lt_7 cmp
      omega
    rw [hk]
    exact pyLt_addDays_pos cmp (6 - weekday cmp)

/-- Witness for C2: on 10.06.2024 the 15.06 birthday falls on a
Saturday and is surfaced with congratulation date 17.06.2024, the
following Monday. -/
theorem c2_weekend_shift_monday_witness :
    formatDate (addDays ⟨2024, 6, 15⟩ (7 - weekday ⟨2024, 6, 15⟩))
        = "17.06.2024" ∧
    ∃ e ∈ ([[("name", "Bob"), ("congratulation_date:", "17.06.2024")]] :
        List Entry),
      e.lookup "name" = some "Bob" ∧
      e.lookup "congratulation_date:"
        = some (formatDate (addDays ⟨2024, 6, 15⟩ (7 - weekday ⟨2024, 6, 15⟩))) ∧
      weekday (addDays ⟨2024, 6, 15⟩ (7 - weekday ⟨2024, 6, 15⟩)) = 0 ∧
      pyLt ⟨2024, 6, 15⟩ (addDays ⟨2024, 6, 15⟩ (7 - weekday ⟨2024, 6, 15⟩)) :=
  ⟨by decide,
    c2_weekend_shift_monday ⟨2024, 6, 10⟩
      ⟨[("Bob", ⟨"Bob", [⟨"1234567890"⟩], some ⟨1990, 6, 15⟩⟩)]⟩
      "Bob" ⟨"Bob", [⟨"1234567890"⟩], some ⟨1990, 6, 15⟩⟩
      ⟨1990, 6, 15⟩ ⟨2024, 6, 15⟩
      [[("name", "Bob"), ("congratulation_date:", "17.06.2024")]]
      (by decide) (by decide) (by decide) (by decide) (by decide) (by decide)⟩

end AddressBookPy
